import Mathlib

/-
Verification of pkg/clients/ssl/ssl.go: a client for SslCertificate GCE
resources.  The Go code wraps a cloud compute API client ("collaborator")
with five CRUD operations plus a polling loop (`waitFor`) that turns an
asynchronous operation into a synchronous result.

The collaborator is modelled as a `Service` record of response functions;
the poll-status RPC additionally takes the poll-iteration index, so that a
single record describes the whole timeline of responses.  The context's
cancellation signal is a predicate on the poll-iteration index.  The
unbounded `for` loop of `waitFor` is embedded with explicit fuel: a result
of `none` means the loop has not returned within the given number of
iterations.
-/

namespace ssl

/-- Source constant `codeQuotaExceeded = "QUOTA_EXCEEDED"`. -/
def codeQuotaExceeded : String := "QUOTA_EXCEEDED"

/-- Source constant `statusDone = "DONE"`. -/
def statusDone : String := "DONE"

/-- Source constant `typeManaged = "MANAGED"`. -/
def typeManaged : String := "MANAGED"

/-- One entry of `compute.Operation.Error.Errors`: a (code, message) pair. -/
structure OperationErrorErrors where
  code : String
  message : String
deriving DecidableEq, Repr

/-- `compute.OperationError`: the structured error detail attached to a
terminal operation. -/
structure OperationError where
  errors : List OperationErrorErrors
deriving DecidableEq, Repr

/-- `compute.Operation`, restricted to the fields ssl.go reads: name,
status, HTTP-level error fields, and the optional structured error object
(`error = none` models the nil pointer). -/
structure Operation where
  name : String
  status : String
  httpErrorMessage : String
  httpErrorStatusCode : Int
  error : Option OperationError
deriving DecidableEq, Repr

/-- `compute.SslCertificateManagedSslCertificate`: the managed-certificate
sub-object holding the domain list. -/
structure SslCertificateManagedSslCertificate where
  domains : List String
deriving DecidableEq, Repr

/-- `compute.SslCertificate`, restricted to the fields ssl.go writes or
returns: the optional managed sub-object, the name and the type tag. -/
structure SslCertificate where
  managed : Option SslCertificateManagedSslCertificate
  name : String
  type : String
deriving DecidableEq, Repr

/-- `compute.SslCertificateList`: the list RPC's response, whose `Items`
field holds the certificates. -/
structure SslCertificateList where
  items : List SslCertificate
deriving DecidableEq, Repr

/-- Modelled from the spec: a Go `error` value returned by the collaborator
client.  The spec treats the HTTP-not-found classifier
`utilshttp.IsNotFound` (pkg/utils/http is not under src/) as an opaque
boundary predicate on errors, so the error value carries the predicate's
verdict as a field, together with the text `err.Error()` would render. -/
structure GoError where
  notFound : Bool
  msg : String
deriving DecidableEq, Repr

/-- Modelled from the spec: `utilshttp.IsNotFound`, the opaque boundary
predicate recognising the "resource does not exist" error shape. -/
def IsNotFound (e : GoError) : Bool := e.notFound

/-- The collaborator `compute.Service`, modelled as a record of response
functions.  `globalOperationsGet` takes the poll-iteration index as a last
argument so one record describes the operation's whole status timeline. -/
structure Service where
  insert : String → SslCertificate → Except GoError Operation
  delete : String → String → Except GoError Operation
  get : String → String → Except GoError SslCertificate
  list : String → Except GoError SslCertificateList
  globalOperationsGet : String → String → Nat → Except GoError Operation

/-- The caller's `context.Context`, restricted to what `waitFor` consults:
whether the cancellation signal fires during the sleep following poll
iteration `i` (before the 10-second timer), and the value of `ctx.Err()`. -/
structure Ctx where
  done : Nat → Bool
  err : String

/-- `sslImpl`: the manager instance, bound to a service and a project. -/
structure SslImpl where
  service : Service
  projectID : String

/-- `ssl.Error`: the structured error wrapping a terminal operation that
completed with errors. -/
structure Error where
  operation : Operation
deriving DecidableEq, Repr

/-- `func (s *Error) Error() string`.  The method dereferences
`s.operation.Error`; a `none` result models the nil-pointer panic Go would
hit when the wrapped operation carries no error object. -/
def Error.errorMessage (s : Error) : Option String :=
  s.operation.error.map fun opErr =>
    let computeErrors := opErr.errors.map fun err =>
      "(" ++ err.code ++ ": " ++ err.message ++ ")"
    "operation " ++ s.operation.name ++ " " ++ s.operation.status ++
      ". Status: " ++ s.operation.httpErrorMessage ++ " (" ++
      toString s.operation.httpErrorStatusCode ++ "), errors: " ++
      String.intercalate ", " computeErrors

/-- `func (s *Error) IsQuotaExceeded() bool`: scans the structured error
entries for code `QUOTA_EXCEEDED`.  As with `errorMessage`, a `none`
result models the nil-pointer dereference of `s.operation.Error`. -/
def Error.IsQuotaExceeded (s : Error) : Option Bool :=
  s.operation.error.map fun opErr =>
    opErr.errors.any fun err => err.code == codeQuotaExceeded

/-- Result of one `waitFor` call: success (`nil`), an `&Error{operation}`
value, the wrapped poll-fetch error, or the context's own error. -/
inductive WaitResult where
  | ok : WaitResult
  | opError : Operation → WaitResult
  | fetchError : String → WaitResult
  | canceled : String → WaitResult
deriving DecidableEq, Repr

/-- Result of a `Create`/`Delete` call: either the initial RPC's error,
propagated unchanged, or the outcome of waiting on the operation. -/
inductive CallResult where
  | rpcError : GoError → CallResult
  | waited : WaitResult → CallResult
deriving DecidableEq, Repr

/-- `func (s sslImpl) waitFor(ctx, operationName) error`, with fuel.
`waitFor s c opName fuel i` runs the loop starting at poll iteration `i`
for at most `fuel` iterations; `none` means no return within the fuel.
Each iteration fetches the operation's status; a fetch error returns a
wrapped message immediately; status `DONE` returns `nil` or an
`&Error{operation}` according to the error object; otherwise the loop
sleeps, returning `ctx.Err()` if cancellation fires during the sleep, and
polls again. -/
def waitFor (s : SslImpl) (c : Ctx) (operationName : String) :
    Nat → Nat → Option WaitResult
  | 0, _ => none
  | fuel + 1, i =>
    match s.service.globalOperationsGet s.projectID operationName i with
    | Except.error e =>
        some (WaitResult.fetchError
          ("could not get operation " ++ operationName ++ ": " ++ e.msg))
    | Except.ok operation =>
        if operation.status = statusDone then
          match operation.error with
          | none => some WaitResult.ok
          | some _ => some (WaitResult.opError operation)
        else if c.done i then
          some (WaitResult.canceled c.err)
        else
          waitFor s c operationName fuel (i + 1)

/-- The certificate specification `Create` builds and hands to the
collaborator's Insert RPC. -/
def createSpec (name : String) (domains : List String) : SslCertificate :=
  { managed := some { domains := domains }
    name := name
    type := typeManaged }

/-- `func (s sslImpl) Create(ctx, name, domains) error`. -/
def Create (s : SslImpl) (c : Ctx) (fuel : Nat) (name : String)
    (domains : List String) : Option CallResult :=
  match s.service.insert s.projectID (createSpec name domains) with
  | Except.error e => some (CallResult.rpcError e)
  | Except.ok operation =>
      (waitFor s c operation.name fuel 0).map CallResult.waited

/-- `func (s sslImpl) Delete(ctx, name) error`. -/
def Delete (s : SslImpl) (c : Ctx) (fuel : Nat) (name : String) :
    Option CallResult :=
  match s.service.delete s.projectID name with
  | Except.error e => some (CallResult.rpcError e)
  | Except.ok operation =>
      (waitFor s c operation.name fuel 0).map CallResult.waited

/-- `func (s sslImpl) Get(name) (*compute.SslCertificate, error)`. -/
def Get (s : SslImpl) (name : String) : Except GoError SslCertificate :=
  s.service.get s.projectID name

/-- `func (s sslImpl) Exists(name) (bool, error)`.  The Go pair
`(bool, error)` is modelled as `Bool × Option GoError`, `none` standing
for a nil error. -/
def ExistsCert (s : SslImpl) (name : String) : Bool × Option GoError :=
  match Get s name with
  | Except.ok _ => (true, none)
  | Except.error e =>
      if IsNotFound e then (false, none) else (false, some e)

/-- `func (s sslImpl) List() ([]*compute.SslCertificate, error)`.  The Go
pair is modelled componentwise so the `(nil, err)` failure shape is
visible. -/
def ListCerts (s : SslImpl) : Option (List SslCertificate) × Option GoError :=
  match s.service.list s.projectID with
  | Except.error e => (none, some e)
  | Except.ok sslCertificates => (some sslCertificates.items, none)

/-- The terminal value `waitFor` produces for an operation observed with
status `DONE`: `nil` when no error object is attached, otherwise the
wrapping `&Error{operation}`. -/
def doneResult (op : Operation) : WaitResult :=
  match op.error with
  | none => WaitResult.ok
  | some _ => WaitResult.opError op

/-- The poll timeline first shows the operation with status `DONE` at
iteration `i`, where the fetch yields `op`; every earlier iteration's
fetch succeeds with a not-done status and cancellation does not fire. -/
def reachesDoneAt (s : SslImpl) (c : Ctx) (opName : String) (i : Nat)
    (op : Operation) : Prop :=
  s.service.globalOperationsGet s.projectID opName i = Except.ok op ∧
  op.status = statusDone ∧
  ∀ j, j < i → ∃ oj,
    s.service.globalOperationsGet s.projectID opName j = Except.ok oj ∧
    oj.status ≠ statusDone ∧ c.done j = false

theorem waitFor_step_fetch_error (s : SslImpl) (c : Ctx) (opName : String)
    (fuel i : Nat) (e : GoError)
    (h : s.service.globalOperationsGet s.projectID opName i = Except.error e) :
    waitFor s c opName (fuel + 1) i =
      some (WaitResult.fetchError
        ("could not get operation " ++ opName ++ ": " ++ e.msg)) := by
  simp only [waitFor, h]

theorem waitFor_step_done (s : SslImpl) (c : Ctx) (opName : String)
    (fuel i : Nat) (op : Operation)
    (h : s.service.globalOperationsGet s.projectID opName i = Except.ok op)
    (hst : op.status = statusDone) :
    waitFor s c opName (fuel + 1) i = some (doneResult op) := by
  simp only [waitFor, h, if_pos hst]
  cases herr : op.error <;> simp [doneResult, herr]

theorem waitFor_step_canceled (s : SslImpl) (c : Ctx) (opName : String)
    (fuel i : Nat) (op : Operation)
    (h : s.service.globalOperationsGet s.projectID opName i = Except.ok op)
    (hst : op.status ≠ statusDone) (hc : c.done i = true) :
    waitFor s c opName (fuel + 1) i = some (WaitResult.canceled c.err) := by
  simp only [waitFor, h, if_neg hst, hc, if_pos]

theorem waitFor_step_continue (s : SslImpl) (c : Ctx) (opName : String)
    (fuel i : Nat) (op : Operation)
    (h : s.service.globalOperationsGet s.projectID opName i = Except.ok op)
    (hst : op.status ≠ statusDone) (hc : c.done i = false) :
    waitFor s c opName (fuel + 1) i = waitFor s c opName fuel (i + 1) := by
  simp only [waitFor, h, if_neg hst, hc, if_neg, Bool.false_eq_true,
    not_false_iff]

theorem waitFor_of_reachesDoneAt (s : SslImpl) (c : Ctx) (opName : String)
    (i : Nat) (op : Operation) (h : reachesDoneAt s c opName i op) :
    ∀ fuel k, k ≤ i → i - k < fuel →
      waitFor s c opName fuel k = some (doneResult op) := by
  intro fuel
  induction fuel with
  | zero => intro k hk hf; omega
  | succ fuel ih =>
    intro k hk hf
    rcases Nat.eq_or_lt_of_le hk with heq | hlt
    · subst heq
      exact waitFor_step_done s c opName fuel k op h.1 h.2.1
    · obtain ⟨oj, hoj, hnd, hcj⟩ := h.2.2 k hlt
      rw [waitFor_step_continue s c opName fuel k oj hoj hnd hcj]
      exact ih (k + 1) hlt (by omega)

/-- C2: for every name, `Exists(name)` returns `(true, nil)` when
`Get(name)` succeeds, `(false, nil)` when Get's error satisfies the
not-found predicate, and `(false, err)` with the original non-nil error
for every other Get error. -/
theorem existsCert_classification (s : SslImpl) (name : String) :
    (∀ cert, Get s name = Except.ok cert →
        ExistsCert s name = (true, none)) ∧
    (∀ e, Get s name = Except.error e → IsNotFound e = true →
        ExistsCert s name = (false, none)) ∧
    (∀ e, Get s name = Except.error e → IsNotFound e = false →
        ExistsCert s name = (false, some e)) := by
  refine ⟨fun cert h => ?_, fun e h hnf => ?_, fun e h hnf => ?_⟩
  · simp [ExistsCert, h]
  · simp [ExistsCert, h, hnf]
  · simp [ExistsCert, h, hnf]

/-- C3: for every `Error` wrapping an operation that carries a structured
error object, `IsQuotaExceeded` returns `true` if and only if at least one
entry of the structured error list has code exactly `"QUOTA_EXCEEDED"`. -/
theorem isQuotaExceeded_iff (op : Operation) (eo : OperationError)
    (h : op.error = some eo) :
    (Error.IsQuotaExceeded ⟨op⟩ = some true ↔
      ∃ e ∈ eo.errors, e.code = "QUOTA_EXCEEDED") ∧
    Error.IsQuotaExceeded ⟨op⟩ =
      some (eo.errors.any fun e => e.code == codeQuotaExceeded) := by
  constructor
  · simp [Error.IsQuotaExceeded, h, List.any_eq_true, codeQuotaExceeded]
  · simp [Error.IsQuotaExceeded, h]

/-- C5: the certificate specification `Create(ctx, name, domains)` sends
to the collaborator's Insert RPC has exactly the given name, exactly the
given domain list as its managed-certificate domains, and type tag
`"MANAGED"`. -/
theorem createSpec_fields (name : String) (domains : List String) :
    (createSpec name domains).name = name ∧
    (createSpec name domains).managed =
      some { domains := domains } ∧
    (createSpec name domains).type = "MANAGED" ∧
    (∀ s c fuel, Create s c fuel name domains =
      match s.service.insert s.projectID (createSpec name domains) with
      | Except.error e => some (CallResult.rpcError e)
      | Except.ok operation =>
          (waitFor s c operation.name fuel 0).map CallResult.waited) :=
  ⟨rfl, rfl, rfl, fun _ _ _ => rfl⟩

/-- C6: `Get(name)` returns exactly the collaborator Get RPC's result
pair: errors are propagated unchanged, with no wrapping, and a fetched
certificate is returned as-is. -/
theorem get_propagates_unchanged (s : SslImpl) (name : String) :
    Get s name = s.service.get s.projectID name ∧
    (∀ e, s.service.get s.projectID name = Except.error e →
        Get s name = Except.error e) ∧
    (∀ cert, s.service.get s.projectID name = Except.ok cert →
        Get s name = Except.ok cert) :=
  ⟨rfl, fun _ h => h, fun _ h => h⟩

/-- C7: `List()` returns exactly the items collection of the
collaborator's list response, unmodified, including an empty collection;
when the list RPC fails, it returns `(nil, err)` with the collaborator's
error. -/
theorem listCerts_exact (s : SslImpl) :
    (∀ sslCertificates, s.service.list s.projectID = Except.ok sslCertificates →
        ListCerts s = (some sslCertificates.items, none)) ∧
    (∀ e, s.service.list s.projectID = Except.error e →
        ListCerts s = (none, some e)) := by
  refine ⟨fun certs h => ?_, fun e h => ?_⟩ <;> simp [ListCerts, h]

/-- C1: for every Create or Delete call whose initial RPC succeeds, the
call returns nil exactly when the polled operation reaches status `DONE`
with no error object attached, and returns an `Error` wrapping the full
operation whenever the operation reaches `DONE` carrying error detail. -/
theorem create_delete_done_classification (s : SslImpl) (c : Ctx) :
    (∀ name domains insOp,
        s.service.insert s.projectID (createSpec name domains) =
          Except.ok insOp →
        ∀ fuel, Create s c fuel name domains =
          (waitFor s c insOp.name fuel 0).map CallResult.waited) ∧
    (∀ name delOp,
        s.service.delete s.projectID name = Except.ok delOp →
        ∀ fuel, Delete s c fuel name =
          (waitFor s c delOp.name fuel 0).map CallResult.waited) ∧
    (∀ opName i op fuel, reachesDoneAt s c opName i op → i < fuel →
        (waitFor s c opName fuel 0 = some WaitResult.ok ↔
          op.error = none) ∧
        (∀ eo, op.error = some eo →
          waitFor s c opName fuel 0 = some (WaitResult.opError op))) := by
  refine ⟨fun name domains insOp hins fuel => ?_,
    fun name delOp hdel fuel => ?_,
    fun opName i op fuel hreach hfuel => ?_⟩
  · simp [Create, hins]
  · simp [Delete, hdel]
  · have hrun := waitFor_of_reachesDoneAt s c opName i op hreach fuel 0
      (Nat.zero_le i) (by omega)
    constructor
    · rw [hrun]
      cases herr : op.error with
      | none => simp [doneResult, herr]
      | some eo => simp [doneResult, herr]
    · intro eo herr
      rw [hrun]
      simp [doneResult, herr]

/-- C4: in the wait loop, if any single status fetch fails, the wait
returns immediately — independently of the remaining fuel, so the fetch is
never retried and no further polling occurs — with a wrapped error built
from the operation name and the underlying cause. -/
theorem waitFor_fetch_error_aborts (s : SslImpl) (c : Ctx) (opName : String)
    (fuel i : Nat) (e : GoError)
    (h : s.service.globalOperationsGet s.projectID opName i = Except.error e) :
    waitFor s c opName (fuel + 1) i =
      some (WaitResult.fetchError
        ("could not get operation " ++ opName ++ ": " ++ e.msg)) ∧
    (∀ otherFuel, waitFor s c opName (otherFuel + 1) i =
      waitFor s c opName (fuel + 1) i) := by
  refine ⟨waitFor_step_fetch_error s c opName fuel i e h, fun otherFuel => ?_⟩
  rw [waitFor_step_fetch_error s c opName fuel i e h,
    waitFor_step_fetch_error s c opName otherFuel i e h]

/-- C8: the wait loop returns only at a terminal condition: whenever a
poll iteration's fetch succeeds, the status is not `DONE` and cancellation
has not fired, the loop just moves to the next iteration; and on a
timeline with no terminal condition the loop never returns within any
amount of fuel — the waiter imposes no deadline of its own. -/
theorem waitFor_no_own_deadline (s : SslImpl) (c : Ctx) (opName : String) :
    (∀ fuel i op,
        s.service.globalOperationsGet s.projectID opName i = Except.ok op →
        op.status ≠ statusDone → c.done i = false →
        waitFor s c opName (fuel + 1) i = waitFor s c opName fuel (i + 1)) ∧
    ((∀ i, ∃ op,
        s.service.globalOperationsGet s.projectID opName i = Except.ok op ∧
        op.status ≠ statusDone ∧ c.done i = false) →
      ∀ fuel i, waitFor s c opName fuel i = none) := by
  refine ⟨waitFor_step_continue s c opName, fun hall fuel => ?_⟩
  induction fuel with
  | zero => intro i; rfl
  | succ fuel ih =>
    intro i
    obtain ⟨op, hop, hnd, hc⟩ := hall i
    rw [waitFor_step_continue s c opName fuel i op hop hnd hc]
    exact ih (i + 1)

/-- C9: if a poll finds the operation `DONE` with an error object whose
structured error list is empty, the wait still returns the wrapping
`Error`; that error's `IsQuotaExceeded` is `false` and its rendered
message ends with an empty joined error list — error detail is decided by
the presence of the error object, not by the list being non-empty. -/
theorem done_with_empty_error_list (s : SslImpl) (c : Ctx) (opName : String)
    (fuel i : Nat) (op : Operation)
    (h : s.service.globalOperationsGet s.projectID opName i = Except.ok op)
    (hst : op.status = statusDone)
    (herr : op.error = some { errors := [] }) :
    waitFor s c opName (fuel + 1) i = some (WaitResult.opError op) ∧
    Error.IsQuotaExceeded { operation := op } = some false ∧
    Error.errorMessage { operation := op } =
      some ("operation " ++ op.name ++ " " ++ op.status ++ ". Status: " ++
        op.httpErrorMessage ++ " (" ++ toString op.httpErrorStatusCode ++
        "), errors: ") := by
  refine ⟨?_, ?_, ?_⟩
  · rw [waitFor_step_done s c opName fuel i op h hst]
    simp [doneResult, herr]
  · simp [Error.IsQuotaExceeded, herr]
  · simp [Error.errorMessage, herr, String.intercalate]

/-- C10: cancellation is consulted only after a fetch finds the operation
not yet done: even when the caller's context is already cancelled
throughout, Create and Delete still perform the first status fetch, and if
it reports `DONE` with no error the call returns nil rather than the
cancellation error. -/
theorem first_fetch_precedes_cancellation (s : SslImpl) (c : Ctx)
    (fuel : Nat) (_hc : ∀ j, c.done j = true) :
    (∀ name domains insOp op,
        s.service.insert s.projectID (createSpec name domains) =
          Except.ok insOp →
        s.service.globalOperationsGet s.projectID insOp.name 0 =
          Except.ok op →
        op.status = statusDone → op.error = none →
        Create s c (fuel + 1) name domains =
          some (CallResult.waited WaitResult.ok)) ∧
    (∀ name delOp op,
        s.service.delete s.projectID name = Except.ok delOp →
        s.service.globalOperationsGet s.projectID delOp.name 0 =
          Except.ok op →
        op.status = statusDone → op.error = none →
        Delete s c (fuel + 1) name =
          some (CallResult.waited WaitResult.ok)) := by
  refine ⟨fun name domains insOp op hins hfetch hst herr => ?_,
    fun name delOp op hdel hfetch hst herr => ?_⟩
  · simp only [Create, hins]
    rw [waitFor_step_done s c insOp.name fuel 0 op hfetch hst]
    simp [doneResult, herr]
  · simp only [Delete, hdel]
    rw [waitFor_step_done s c delOp.name fuel 0 op hfetch hst]
    simp [doneResult, herr]

/-- Fixture: an operation that is done with no error object. -/
def opDoneOk : Operation :=
  { name := "op-1", status := "DONE", httpErrorMessage := ""
    httpErrorStatusCode := 0, error := none }

/-- Fixture: an operation that is still running. -/
def opRunning : Operation :=
  { name := "op-1", status := "RUNNING", httpErrorMessage := ""
    httpErrorStatusCode := 0, error := none }

/-- Fixture: a done operation carrying a quota-exceeded error entry. -/
def opDoneQuota : Operation :=
  { name := "op-2", status := "DONE", httpErrorMessage := ""
    httpErrorStatusCode := 0
    error := some { errors :=
      [{ code := "QUOTA_EXCEEDED", message := "limit reached" }] } }

/-- Fixture: a done operation whose error object has an empty list. -/
def opDoneEmptyErr : Operation :=
  { name := "op-3", status := "DONE", httpErrorMessage := ""
    httpErrorStatusCode := 0, error := some { errors := [] } }

/-- Fixture: a not-found error, as classified by the boundary predicate. -/
def errNotFound : GoError := { notFound := true, msg := "googleapi 404" }

/-- Fixture: a transport error that is not a not-found condition. -/
def errTransport : GoError := { notFound := false, msg := "net timeout" }

/-- Fixture: a collaborator whose calls all succeed and whose operations
complete immediately. -/
def serviceOk : Service :=
  { insert := fun _ _ => Except.ok opDoneOk
    delete := fun _ _ => Except.ok opDoneOk
    get := fun _ _ => Except.ok (createSpec "cert-a" ["example.com"])
    list := fun _ => Except.ok { items := [] }
    globalOperationsGet := fun _ _ _ => Except.ok opDoneOk }

/-- Fixture: the manager bound to `serviceOk`. -/
def implOk : SslImpl := { service := serviceOk, projectID := "project-1" }

/-- Fixture: a collaborator whose Get reports not-found. -/
def implNotFound : SslImpl :=
  { service := { serviceOk with get := fun _ _ => Except.error errNotFound }
    projectID := "project-1" }

/-- Fixture: a collaborator whose Get fails with a transport error. -/
def implBroken : SslImpl :=
  { service := { serviceOk with get := fun _ _ => Except.error errTransport }
    projectID := "project-1" }

/-- Fixture: a collaborator whose operation-status fetch always fails. -/
def implFetchErr : SslImpl :=
  { service := { serviceOk with
      globalOperationsGet := fun _ _ _ => Except.error errTransport }
    projectID := "project-1" }

/-- Fixture: a collaborator whose operation never leaves `RUNNING`. -/
def implRunning : SslImpl :=
  { service := { serviceOk with
      globalOperationsGet := fun _ _ _ => Except.ok opRunning }
    projectID := "project-1" }

/-- Fixture: a collaborator whose operation completes with an error
object holding an empty error list. -/
def implEmptyErr : SslImpl :=
  { service := { serviceOk with
      globalOperationsGet := fun _ _ _ => Except.ok opDoneEmptyErr }
    projectID := "project-1" }

/-- Fixture: a context whose cancellation never fires. -/
def ctxLive : Ctx := { done := fun _ => false, err := "context canceled" }

/-- Fixture: a context that is already cancelled throughout. -/
def ctxCanceled : Ctx := { done := fun _ => true, err := "context canceled" }

/-- Witness for C1 at a concrete collaborator: the done-with-no-error
operation makes both Create and Delete return nil. -/
theorem create_delete_done_classification_witness :
    Create implOk ctxLive 1 "cert-a" ["example.com"] =
      some (CallResult.waited WaitResult.ok) ∧
    Delete implOk ctxLive 1 "cert-a" =
      some (CallResult.waited WaitResult.ok) := by
  have h := create_delete_done_classification implOk ctxLive
  have hreach : reachesDoneAt implOk ctxLive "op-1" 0 opDoneOk :=
    ⟨rfl, rfl, fun j hj => absurd hj (Nat.not_lt_zero j)⟩
  have hok := ((h.2.2 "op-1" 0 opDoneOk 1 hreach (by omega)).1).mpr rfl
  have hname : opDoneOk.name = "op-1" := rfl
  constructor
  · rw [h.1 "cert-a" ["example.com"] opDoneOk rfl 1, hname, hok]; rfl
  · rw [h.2.1 "cert-a" opDoneOk rfl 1, hname, hok]; rfl

/-- Witness for C2 at three concrete collaborators: success, not-found,
and a generic transport error. -/
theorem existsCert_classification_witness :
    ExistsCert implOk "cert-a" = (true, none) ∧
    ExistsCert implNotFound "cert-a" = (false, none) ∧
    ExistsCert implBroken "cert-a" = (false, some errTransport) :=
  ⟨(existsCert_classification implOk "cert-a").1
      (createSpec "cert-a" ["example.com"]) rfl,
   (existsCert_classification implNotFound "cert-a").2.1 errNotFound rfl rfl,
   (existsCert_classification implBroken "cert-a").2.2 errTransport rfl rfl⟩

/-- Witness for C3 at a concrete operation carrying one quota entry. -/
theorem isQuotaExceeded_iff_witness :
    Error.IsQuotaExceeded { operation := opDoneQuota } = some true := by
  have h := isQuotaExceeded_iff opDoneQuota
    { errors := [{ code := "QUOTA_EXCEEDED", message := "limit reached" }] }
    rfl
  exact h.1.mpr ⟨{ code := "QUOTA_EXCEEDED", message := "limit reached" },
    List.mem_singleton.mpr rfl, rfl⟩

/-- Witness for C4 at a concrete collaborator whose fetch fails. -/
theorem waitFor_fetch_error_aborts_witness :
    waitFor implFetchErr ctxLive "op-1" 1 0 =
      some (WaitResult.fetchError
        ("could not get operation " ++ "op-1" ++ ": " ++ errTransport.msg)) :=
  (waitFor_fetch_error_aborts implFetchErr ctxLive "op-1" 0 0
    errTransport rfl).1

/-- Witness for C5 at a concrete name and domain list. -/
theorem createSpec_fields_witness :
    (createSpec "cert-a" ["example.com"]).name = "cert-a" ∧
    (createSpec "cert-a" ["example.com"]).type = "MANAGED" :=
  ⟨(createSpec_fields "cert-a" ["example.com"]).1,
   (createSpec_fields "cert-a" ["example.com"]).2.2.1⟩

/-- Witness for C6 at a concrete collaborator. -/
theorem get_propagates_unchanged_witness :
    Get implBroken "cert-a" = Except.error errTransport :=
  (get_propagates_unchanged implBroken "cert-a").2.1 errTransport rfl

/-- Witness for C7 at a concrete collaborator with no certificates. -/
theorem listCerts_exact_witness : ListCerts implOk = (some [], none) :=
  (listCerts_exact implOk).1 { items := [] } rfl

/-- Witness for C8 at a concrete never-done collaborator: five fuel, no
return. -/
theorem waitFor_no_own_deadline_witness :
    waitFor implRunning ctxLive "op-1" 5 0 = none :=
  (waitFor_no_own_deadline implRunning ctxLive "op-1").2
    (fun _ => ⟨opRunning, rfl, by decide, rfl⟩) 5 0

/-- Witness for C9 at a concrete done operation with an empty error
list. -/
theorem done_with_empty_error_list_witness :
    waitFor implEmptyErr ctxLive "op-3" 1 0 =
      some (WaitResult.opError opDoneEmptyErr) :=
  (done_with_empty_error_list implEmptyErr ctxLive "op-3" 0 0
    opDoneEmptyErr rfl rfl rfl).1

/-- Witness for C10 at a concrete already-cancelled context. -/
theorem first_fetch_precedes_cancellation_witness :
    Create implOk ctxCanceled 1 "cert-a" ["example.com"] =
      some (CallResult.waited WaitResult.ok) :=
  (first_fetch_precedes_cancellation implOk ctxCanceled 0 (fun _ => rfl)).1
    "cert-a" ["example.com"] opDoneOk opDoneOk rfl rfl rfl rfl

end ssl
